import Mathlib

/-!
Verification of the typedconf repository: a shallow embedding of its
configuration merge engine (`deep_merge`, `load_sources`), its TOML file
loader, the settings-assembly precedence orders, the tool-schema
introspector and the OpenAI call adapter, together with theorems settling
the specification's claims about them.
-/

set_option maxRecDepth 4000

/-! ## Association-list primitives shared by both models

Python `dict` objects are modelled as association lists with unique keys in
insertion order.  `getKey` models `d.get(k)` / `k in d`; `setKey` models
`d[k] = v` (replace the value at an existing key in place, else append).
-/

def getKey {α : Type} : List (String × α) → String → Option α
  | [], _ => none
  | (k', v) :: rest, k => if k' = k then some v else getKey rest k

def setKey {α : Type} : List (String × α) → String → α → List (String × α)
  | [], k, v => [(k, v)]
  | (k', v') :: rest, k, v =>
      if k' = k then (k, v) :: rest else (k', v') :: setKey rest k v

theorem getKey_setKey_self {α : Type} (d : List (String × α)) (k : String) (v : α) :
    getKey (setKey d k v) k = some v := by
  induction d with
  | nil => simp [setKey, getKey]
  | cons hd tl ih =>
      obtain ⟨k', v'⟩ := hd
      by_cases hk : k' = k
      · simp [setKey, hk, getKey]
      · simp [setKey, hk, getKey, ih]

theorem getKey_setKey_ne {α : Type} (d : List (String × α)) (k k' : String) (v : α)
    (h : k' ≠ k) : getKey (setKey d k v) k' = getKey d k' := by
  have hne : k ≠ k' := Ne.symm h
  induction d with
  | nil => simp [setKey, getKey, hne]
  | cons hd tl ih =>
      obtain ⟨k0, v0⟩ := hd
      by_cases hk : k0 = k
      · subst hk
        simp [setKey, getKey, hne]
      · simp only [setKey, if_neg hk, getKey]
        by_cases hk' : k0 = k'
        · simp [hk']
        · simp [hk', ih]

theorem getKey_eq_none_of_not_mem {α : Type} (d : List (String × α)) (k : String)
    (h : k ∉ d.map Prod.fst) : getKey d k = none := by
  induction d with
  | nil => rfl
  | cons hd tl ih =>
      obtain ⟨k0, v0⟩ := hd
      simp only [List.map_cons, List.mem_cons] at h
      push_neg at h
      have hne : ¬ k0 = k := Ne.symm h.1
      simp [getKey, hne, ih h.2]

/-! ## Pure value model of the configuration tree

`ConfigVal` is the universe of Python values flowing through
`deep_merge` in `src/typedconf/config/core.py`:

* `vint`, `vstr` — scalars;
* `vlist` — Python lists (not `Mapping` instances, so `deep_merge`
  replaces them wholesale);
* `vdict` — an exact `dict` instance;
* `vmap` — a `Mapping` that is *not* a `dict` (e.g. the
  `types.MappingProxyType` wrappers returned by `TomlFileLoader.load`).
-/

inductive ConfigVal : Type where
  | vint : Int → ConfigVal
  | vstr : String → ConfigVal
  | vlist : List ConfigVal → ConfigVal
  | vdict : List (String × ConfigVal) → ConfigVal
  | vmap : List (String × ConfigVal) → ConfigVal

abbrev Entries := List (String × ConfigVal)

/-- Test for `isinstance(v, Mapping)`: exact dicts and non-dict mappings. -/
def ConfigVal.isMapping : ConfigVal → Bool
  | .vdict _ => true
  | .vmap _ => true
  | _ => false

/-- A value that is neither a dict nor any other `Mapping`. -/
def ConfigVal.isScalar : ConfigVal → Bool
  | .vdict _ => false
  | .vmap _ => false
  | _ => true

/-!
Model of `deep_merge(source, destination)` from
`src/typedconf/config/core.py` (lines 31–59), value-level semantics.
Per key/value of `source`, in iteration order:

* if the value is a `Mapping` (dict or not) and the destination holds an
  exact `dict` at that key, recurse into the two;
* else if the value is an exact `dict`, assign `value.copy()` (at value
  level the same entries; the heap model below captures the shallowness);
* else assign the value as-is (scalars, lists, and non-dict mappings).
-/
mutual

/-- Loop of `deep_merge` over the source's items, in iteration order. -/
def deep_merge : Entries → Entries → Entries
  | [], dst => dst
  | (k, v) :: rest, dst =>
      deep_merge rest (setKey dst k (mergedValue v (getKey dst k)))
termination_by src _ => (sizeOf src, 0)

/--
The value `destination[key]` holds after one iteration of the
`deep_merge` loop, given the source value and the destination's previous
value at that key (`none` when the key was absent):

* source value a `Mapping` and destination value an exact `dict` —
  recurse (the in-place merge leaves the merged dict at the key);
* else source value an exact `dict` — `value.copy()`;
* else — the source value as-is.
-/
def mergedValue : ConfigVal → Option ConfigVal → ConfigVal
  | .vdict es, some (.vdict des) => .vdict (deep_merge es des)
  | .vmap es, some (.vdict des) => .vdict (deep_merge es des)
  | .vdict es, _ => .vdict es
  | v, _ => v
termination_by v _ => (sizeOf v, 1)

end

/-! ## File loader and `load_sources`

`TomlFileLoader` from `src/typedconf/config/formats.py`.  The filesystem
is passed explicitly: `FileContent` is what the world holds at a path —
absent, a file parsing to a tree, or a file the TOML parser rejects
(`TOMLDecodeError`/`OSError`).
-/

inductive FileContent : Type where
  | missing : FileContent
  | parsed : Entries → FileContent
  | malformed : FileContent

/-- Errors a loader's `load()` can raise. -/
inductive LoadError : Type where
  | fileNotFound : String → LoadError
  | otherError : LoadError
deriving DecidableEq

structure TomlFileLoader : Type where
  file_path : String
  required : Bool

/--
Model of `TomlFileLoader.load` (`src/typedconf/config/formats.py` lines 44–68): a
missing path raises `FileNotFoundError` naming the path when `required`,
else yields an empty mapping; a file that exists but fails to parse
yields an empty mapping (with a logged warning) and never raises.
-/
def TomlFileLoader.load (l : TomlFileLoader) (fs : String → FileContent) :
    Except LoadError Entries :=
  match fs l.file_path with
  | .missing =>
      if l.required then .error (.fileNotFound l.file_path)
      else .ok []
  | .parsed data => .ok data
  | .malformed => .ok []

/--
A loader, abstracted by the outcome of its `load()` call: either the
mapping it returns or the exception it raises.
-/
abbrev LoaderOutcome := Except LoadError Entries

/--
Model of `load_sources` from `src/typedconf/config/core.py` (lines 68–85): fold
left-to-right over the loaders, deep-merging each successful `load()`
result into the mutable accumulator (the loader's tree is the merge
*source*, the accumulator the *destination*); a loader that raises is
caught, logged and skipped.
-/
def load_sources (sources : List LoaderOutcome) : Entries :=
  sources.foldl
    (fun merged_config loader =>
      match loader with
      | .ok config_data => deep_merge config_data merged_config
      | .error _ => merged_config)
    []

/-- Generalisation of `load_sources` to an arbitrary accumulator. -/
theorem load_sources_foldl (sources : List LoaderOutcome) :
    load_sources sources =
      sources.foldl
        (fun merged_config loader =>
          match loader with
          | .ok config_data => deep_merge config_data merged_config
          | .error _ => merged_config)
        [] := rfl

theorem foldl_skip_error (pre post : List LoaderOutcome) (e : LoadError)
    (acc : Entries) :
    (pre ++ .error e :: post).foldl
        (fun merged_config loader =>
          match loader with
          | .ok config_data => deep_merge config_data merged_config
          | .error _ => merged_config) acc =
      (pre ++ post).foldl
        (fun merged_config loader =>
          match loader with
          | .ok config_data => deep_merge config_data merged_config
          | .error _ => merged_config) acc := by
  induction pre generalizing acc with
  | nil => simp [List.foldl]
  | cons hd tl ih => cases hd <;> simp [List.foldl, ih]

/-- A raising loader anywhere in the list contributes nothing. -/
theorem load_sources_skip_error (pre post : List LoaderOutcome) (e : LoadError) :
    load_sources (pre ++ .error e :: post) = load_sources (pre ++ post) :=
  foldl_skip_error pre post e []

theorem foldl_filter_ok (sources : List LoaderOutcome) (acc : Entries) :
    sources.foldl
        (fun merged_config loader =>
          match loader with
          | .ok config_data => deep_merge config_data merged_config
          | .error _ => merged_config) acc =
      (sources.filter (fun l => l.toBool)).foldl
        (fun merged_config loader =>
          match loader with
          | .ok config_data => deep_merge config_data merged_config
          | .error _ => merged_config) acc := by
  induction sources generalizing acc with
  | nil => rfl
  | cons hd tl ih =>
      cases hd with
      | ok d => simp [List.foldl, List.filter, Except.toBool, Except.isOk, ih]
      | error e => simp [List.foldl, List.filter, Except.toBool, Except.isOk, ih]

/-- Failing loaders can be dropped wholesale: only `.ok` outcomes matter. -/
theorem load_sources_filter_ok (sources : List LoaderOutcome) :
    load_sources sources =
      load_sources (sources.filter (fun l => l.toBool)) :=
  foldl_filter_ok sources []

/-! ### Lookup behaviour of `deep_merge` -/

/-- A scalar (non-`Mapping`) source value is always stored as-is. -/
theorem mergedValue_scalar (v : ConfigVal) (o : Option ConfigVal)
    (h : ConfigVal.isScalar v = true) : mergedValue v o = v := by
  cases v with
  | vint n =>
      cases o with
      | none => simp [mergedValue]
      | some dv => cases dv <;> simp [mergedValue]
  | vstr s =>
      cases o with
      | none => simp [mergedValue]
      | some dv => cases dv <;> simp [mergedValue]
  | vlist l =>
      cases o with
      | none => simp [mergedValue]
      | some dv => cases dv <;> simp [mergedValue]
  | vdict es => simp [ConfigVal.isScalar] at h
  | vmap es => simp [ConfigVal.isScalar] at h

/-- A key absent from the merge source keeps its destination value. -/
theorem getKey_deep_merge_not_mem (src : Entries) (k : String)
    (h : getKey src k = none) :
    ∀ dst : Entries, getKey (deep_merge src dst) k = getKey dst k := by
  induction src with
  | nil => intro dst; simp [deep_merge]
  | cons hd rest ih =>
      obtain ⟨k0, v0⟩ := hd
      simp only [getKey] at h
      by_cases hk : k0 = k
      · simp [hk] at h
      · simp only [if_neg hk] at h
        have hne : k ≠ k0 := Ne.symm hk
        intro dst
        rw [deep_merge, ih h _, getKey_setKey_ne _ _ _ _ hne]

/-- Merging a scalar-valued source key always installs the source's value. -/
theorem getKey_deep_merge_scalar (src : Entries) (k : String) (v : ConfigVal)
    (hnd : (src.map Prod.fst).Nodup)
    (hsc : ∀ kv ∈ src, ConfigVal.isScalar kv.2 = true)
    (h : getKey src k = some v) :
    ∀ dst : Entries, getKey (deep_merge src dst) k = some v := by
  induction src with
  | nil => simp [getKey] at h
  | cons hd rest ih =>
      obtain ⟨k0, v0⟩ := hd
      have hv0 : ConfigVal.isScalar v0 = true := hsc (k0, v0) (List.mem_cons_self _ _)
      simp only [List.map_cons, List.nodup_cons] at hnd
      intro dst
      rw [deep_merge, mergedValue_scalar v0 _ hv0]
      simp only [getKey] at h
      by_cases hk : k0 = k
      · subst hk
        simp at h
        subst h
        have hrest : getKey rest k0 = none :=
          getKey_eq_none_of_not_mem rest k0 (by simpa using hnd.1)
        rw [getKey_deep_merge_not_mem rest k0 hrest _, getKey_setKey_self]
      · simp only [if_neg hk] at h
        exact ih hnd.2 (fun kv hkv => hsc kv (List.mem_cons_of_mem _ hkv)) h _

/-! ## Settings assembly

The repository holds two variants of `AppConfig.settings_customise_sources`.
Each returns an ordered tuple of value sources which pydantic-settings (an
external library) consults in order, earlier sources winning — as the code
comment at `src/typedconf/config/user_config.py` lines 83–90 states: "The
order determines priority (earlier sources win)."
-/

/-- A pydantic settings source: a value provider per configuration key. -/
abbrev SettingsSource := String → Option ConfigVal

/--
Modelled from the spec: the resolution pydantic-settings applies to the
tuple returned by `settings_customise_sources` (the library itself is not
part of this repository) — sources are consulted in tuple order and the
first one that supplies the key wins.
-/
def resolveSettings : List SettingsSource → String → Option ConfigVal
  | [], _ => none
  | s :: rest, k =>
      match s k with
      | some v => some v
      | none => resolveSettings rest k

/--
Tuple returned by `AppConfig.settings_customise_sources` in
`src/typedconf/config/user_config.py` (lines 91–97): constructor-supplied
settings, environment variables, dotenv, secret files, then the merged
TOML-file tree last (as `lambda: merged_file_config`).
-/
def settings_customise_sources
    (init_settings env_settings dotenv_settings file_secret_settings : SettingsSource)
    (merged_file_config : Entries) : List SettingsSource :=
  [init_settings, env_settings, dotenv_settings, file_secret_settings,
   fun k => getKey merged_file_config k]

/--
Tuple returned by the legacy `AppConfig.settings_customise_sources` in
`src/typedconf/user_config.py` (line 48): environment variables first,
then constructor-supplied settings, then the merged file tree; the dotenv
and secret-file sources are dropped.
-/
def settings_customise_sources_legacy
    (init_settings env_settings : SettingsSource)
    (merged_file_config : Entries) : List SettingsSource :=
  [env_settings, init_settings, fun k => getKey merged_file_config k]

/--
File loaders built inside `settings_customise_sources`
(`src/typedconf/config/user_config.py` lines 74–78): a required base
file, an optional environment-specific file, an optional local override.
-/
def config_sources (env : String) : List TomlFileLoader :=
  [⟨"config.default.toml", true⟩,
   ⟨"config." ++ env ++ ".toml", false⟩,
   ⟨"config.local.toml", false⟩]

/-- Merged file-based tree computed at line 81 of the same file. -/
def merged_file_config (env : String) (fs : String → FileContent) : Entries :=
  load_sources ((config_sources env).map (fun l => l.load fs))

/-! ## Schema introspection (`src/typedconf/core/introspection.py`) -/

/--
Universe of annotations fed to `python_type_to_json`: the recognised
builtins (with `List[...]`/`Dict[...]` folded into their origins, as the
source's `__origin__` checks do) and an opaque remainder for anything
else, `None` included.
-/
inductive PyType : Type where
  | pyStr | pyInt | pyFloat | pyBool | pyList | pyDict | pyOther
deriving DecidableEq

/-- Model of `python_type_to_json` (lines 5–22). -/
def python_type_to_json : PyType → String
  | .pyStr => "string"
  | .pyInt => "integer"
  | .pyFloat => "number"
  | .pyBool => "boolean"
  | .pyList => "array"
  | .pyDict => "object"
  | .pyOther => "string"

/-- A declared parameter as `inspect.signature` and `get_type_hints` see it. -/
structure PyParam : Type where
  name : String
  annotation : Option PyType
  hasDefault : Bool
deriving DecidableEq

/-- A callable as the introspector sees it. -/
structure PyFunction : Type where
  name : String
  docstring : Option String
  params : List PyParam
deriving DecidableEq

/-- The tool definition dictionary built by `generate_tool_schema`. -/
structure ToolSchema : Type where
  schema_type : String
  name : String
  description : String
  properties : List (String × String)
  required : List String
deriving DecidableEq

/--
Python's `str.strip()`: drop leading and trailing whitespace.
-/
def pystrip (s : String) : String :=
  ⟨((s.data.dropWhile Char.isWhitespace).reverse.dropWhile Char.isWhitespace).reverse⟩

/--
Loop body of `generate_tool_schema` for one declared parameter: skip
`self`/`cls`; record the json type from the type hint (defaulting to
`str` when unannotated); append the parameter to `required` exactly when
it has no default value.
-/
def toolSchemaStep (schema : ToolSchema) (param : PyParam) : ToolSchema :=
  if param.name = "self" ∨ param.name = "cls" then schema
  else
    let json_type := python_type_to_json (param.annotation.getD .pyStr)
    let schema :=
      { schema with properties := setKey schema.properties param.name json_type }
    if param.hasDefault then schema
    else { schema with required := schema.required ++ [param.name] }

/--
Model of `generate_tool_schema` (lines 25–59): description from the
stripped docstring when the docstring is truthy (present and non-empty),
else a fixed fallback; then the per-parameter loop `toolSchemaStep` over
the declared parameters in signature order.
-/
def generate_tool_schema (func : PyFunction) : ToolSchema :=
  let base : ToolSchema :=
    { schema_type := "function"
      name := func.name
      description :=
        match func.docstring with
        | some doc => if doc = "" then "No description provided." else pystrip doc
        | none => "No description provided."
      properties := []
      required := [] }
  func.params.foldl toolSchemaStep base

/-! ## OpenAI call adapter (`src/typedconf/core/openai_model.py`) -/

inductive MessageRole : Type where
  | user | assistant | system
deriving DecidableEq

/-- String value of the role enum (`core_interfaces.py` lines 6–9). -/
def MessageRole.value : MessageRole → String
  | .user => "user"
  | .assistant => "assistant"
  | .system => "system"

structure ChatMessage : Type where
  role : MessageRole
  content : String
deriving DecidableEq

/-- Nested model configuration (`src/typedconf/config/user_config.py` lines 16–21). -/
structure ModelConfig : Type where
  id : String
  top_p : ℚ
  max_tokens : Int
  temperature : ℚ
deriving DecidableEq

/-- Usage counters; `model_dump()` copies them verbatim. -/
structure ChatUsage : Type where
  prompt_tokens : Int
  completion_tokens : Int
  total_tokens : Int
deriving DecidableEq

structure ChoiceMessage : Type where
  content : Option String
deriving DecidableEq

structure ChatChoice : Type where
  message : ChoiceMessage
  finish_reason : Option String
deriving DecidableEq

/-- The transport's completion object. -/
structure ChatCompletion : Type where
  choices : List ChatChoice
  model : String
  usage : Option ChatUsage
  system_fingerprint : Option String
deriving DecidableEq

/-- Normalised result (`core_interfaces.py` lines 17–24). -/
structure ChatResponse : Type where
  content : String
  model : String
  usage : Option ChatUsage := none
  response_time : Option ℚ := none
  finish_reason : Option String := none
  metadata : Option (List (String × Option String)) := none
deriving DecidableEq

/-- The request parameter set sent to the completion endpoint. -/
structure ApiParams : Type where
  model : String
  temperature : ℚ
  max_tokens : Int
  top_p : ℚ
deriving DecidableEq

/-- Per-call keyword overrides (`**kwargs`) for the same parameters. -/
structure InvokeKwargs : Type where
  model : Option String := none
  temperature : Option ℚ := none
  max_tokens : Option Int := none
  top_p : Option ℚ := none
deriving DecidableEq

/--
Model of `OpenAILanguageModel.invoke` (lines 21–51).  The blocking
transport is a parameter (wire messages and parameters in, completion
out), as are the two wall-clock readings around the call.  The unguarded
`response.choices[0]` is the sole failure point: an empty choices list
yields no `ChatResponse` (the IndexError propagates), modelled as `none`.
-/
def invoke (model_config : ModelConfig)
    (client : List (String × String) → ApiParams → ChatCompletion)
    (messages : List ChatMessage) (kwargs : InvokeKwargs)
    (start_time end_time : ℚ) : Option ChatResponse :=
  let openai_messages := messages.map (fun msg => (msg.role.value, msg.content))
  let api_params : ApiParams :=
    { model := kwargs.model.getD model_config.id
      temperature := kwargs.temperature.getD model_config.temperature
      max_tokens := kwargs.max_tokens.getD model_config.max_tokens
      top_p := kwargs.top_p.getD model_config.top_p }
  let response := client openai_messages api_params
  match response.choices with
  | [] => none
  | choice :: _ =>
      some { content := choice.message.content.getD ""
             model := response.model
             usage := response.usage
             response_time := some (end_time - start_time)
             finish_reason := choice.finish_reason
             metadata := some [("system_fingerprint", response.system_fingerprint)] }

/-! ## Heap model of `deep_merge`

The pure model above captures values; reference identity (which `dict`
object sits where, what `value.copy()` shares) needs an explicit object
heap.  `PVal` is a Python value in a slot: an immediate scalar or a
reference to a mapping object.  A `MapObj` is a mapping object — an exact
`dict` when `isDict`, a non-dict `Mapping` (e.g. `MappingProxyType`)
otherwise.  Addresses are allocated in increasing order (`next`).
-/

abbrev Addr := Nat

inductive PVal : Type where
  | int : Int → PVal
  | ref : Addr → PVal
deriving DecidableEq

structure MapObj : Type where
  isDict : Bool
  entries : List (String × PVal)
deriving DecidableEq

structure Heap : Type where
  objs : List (Addr × MapObj)
  next : Addr
deriving DecidableEq

/-- Lookup in the object store. -/
def hfind : List (Addr × MapObj) → Addr → Option MapObj
  | [], _ => none
  | (a0, m) :: rest, a => if a0 = a then some m else hfind rest a

/-- In-place replacement in the object store (addresses are unique). -/
def hstore : List (Addr × MapObj) → Addr → MapObj → List (Addr × MapObj)
  | [], _, _ => []
  | (a0, m0) :: rest, a, o =>
      if a0 = a then (a, o) :: rest else (a0, m0) :: hstore rest a o

/-- Dereference an address. -/
def hGet (h : Heap) (a : Addr) : Option MapObj :=
  hfind h.objs a

/-- Overwrite the object at an (existing) address, in place. -/
def hSet (h : Heap) (a : Addr) (o : MapObj) : Heap :=
  { h with objs := hstore h.objs a o }

/-- Test for `isinstance(x, dict)` of the object behind an address. -/
def isDictAddr (h : Heap) (a : Addr) : Bool :=
  match hGet h a with
  | some m => m.isDict
  | none => false

/-- All addresses ever handed out lie below the allocation cursor. -/
def WellFormedHeap (h : Heap) : Prop :=
  ∀ p ∈ h.objs, p.1 < h.next

/--
Effect of `destination[key] = value` on the heap: the destination
object's entries are updated, nothing is allocated.
-/
def assignKey (h : Heap) (dst : Addr) (dobj : MapObj) (k : String) (v : PVal) : Heap :=
  hSet h dst { dobj with entries := setKey dobj.entries k v }

/--
Effect of `destination[key] = value.copy()` for a `dict` value at
address `a`: a fresh `dict` object is allocated at `h.next` holding the
*same entry list* (a shallow copy: nested references are shared), and the
destination's entry is pointed at the fresh object.
-/
def copyAssign (h : Heap) (dst : Addr) (dobj : MapObj) (k : String) (a : Addr) : Heap :=
  let m := (hGet h a).getD ⟨true, []⟩
  let h1 : Heap := { objs := h.objs ++ [(h.next, ⟨true, m.entries⟩)], next := h.next + 1 }
  hSet h1 dst { dobj with entries := setKey dobj.entries k (.ref h.next) }

mutual

/--
Heap semantics of `deep_merge(source, destination)` (addresses of the two
mapping objects).  `fuel` bounds the nesting depth only; every run in the
theorems below supplies enough.
-/
def deepMergeH : Nat → Addr → Addr → Heap → Option Heap
  | 0, _, _, _ => none
  | fuel + 1, src, dst, h =>
      match hGet h src with
      | none => none
      | some sobj => mergeItems fuel sobj.entries dst h
termination_by fuel _ _ _ => (fuel, 0, 0)

/-- The `for key, value in source.items()` loop. -/
def mergeItems : Nat → List (String × PVal) → Addr → Heap → Option Heap
  | _, [], _, h => some h
  | fuel, (k, v) :: rest, dst, h =>
      match mergeItem fuel k v dst h with
      | none => none
      | some h' => mergeItems fuel rest dst h'
termination_by fuel items _ _ => (fuel, items.length + 1, 0)

/--
One loop iteration, for `key = k`, `value = v`:

* `value` a live `Mapping` and `destination.get(key)` an exact `dict` —
  recurse in place on the two addresses;
* else `value` an exact `dict` — `destination[key] = value.copy()`;
* else — `destination[key] = value`.
-/
def mergeItem : Nat → String → PVal → Addr → Heap → Option Heap
  | fuel, k, v, dst, h =>
      match hGet h dst with
      | none => none
      | some dobj =>
          match v, getKey dobj.entries k with
          | .ref a, some (.ref b) =>
              if (hGet h a).isSome && isDictAddr h b then deepMergeH fuel a b h
              else if isDictAddr h a then some (copyAssign h dst dobj k a)
              else some (assignKey h dst dobj k (.ref a))
          | .ref a, _ =>
              if isDictAddr h a then some (copyAssign h dst dobj k a)
              else some (assignKey h dst dobj k (.ref a))
          | v, _ => some (assignKey h dst dobj k v)
termination_by fuel _ _ _ _ => (fuel, 0, 1)

end

/-! ## Claim C1 -/

/--
C1: `load_sources` is the left-to-right fold of `deep_merge` of each
loader's output into an initially empty accumulator; later loaders win on
conflicting scalar keys, disjoint keys are preserved
(`{"a":1,"b":1}` then `{"a":2}` gives `{"a":2,"b":1}`), the empty loader
list gives the empty tree, and within one merge `deep_merge(A, B)` is
`B` with `A`'s scalar values substituted pointwise (`A` wins).
-/
theorem load_sources_is_fold_of_deep_merge :
    (load_sources [] = []) ∧
    (∀ sources : List LoaderOutcome,
      load_sources sources =
        sources.foldl
          (fun merged_config loader =>
            match loader with
            | .ok config_data => deep_merge config_data merged_config
            | .error _ => merged_config)
          []) ∧
    (∀ A B : Entries, ∀ k : String,
      getKey A k = none → getKey (deep_merge A B) k = getKey B k) ∧
    (∀ A B : Entries,
      (A.map Prod.fst).Nodup →
      (∀ kv ∈ A, ConfigVal.isScalar kv.2 = true) →
      ∀ k : String,
        getKey (deep_merge A B) k =
          match getKey A k with
          | some v => some v
          | none => getKey B k) ∧
    (load_sources [.ok [("a", .vint 1), ("b", .vint 1)], .ok [("a", .vint 2)]] =
      [("a", .vint 2), ("b", .vint 1)]) := by
  refine ⟨rfl, fun _ => rfl, ?_, ?_, ?_⟩
  · intro A B k h
    exact getKey_deep_merge_not_mem A k h B
  · intro A B hnd hsc k
    cases hA : getKey A k with
    | none => simp [getKey_deep_merge_not_mem A k hA B]
    | some v => simp [getKey_deep_merge_scalar A k v hnd hsc hA B]
  · simp [load_sources, List.foldl, deep_merge, mergedValue, getKey, setKey]

/-- Witness for C1, at the spec's literal trees. -/
theorem load_sources_is_fold_of_deep_merge_witness :
    getKey (deep_merge [("a", ConfigVal.vint 2)]
        [("a", ConfigVal.vint 1), ("b", ConfigVal.vint 1)]) "a" =
      match getKey [("a", ConfigVal.vint 2)] "a" with
      | some v => some v
      | none => getKey [("a", ConfigVal.vint 1), ("b", ConfigVal.vint 1)] "a" :=
  load_sources_is_fold_of_deep_merge.2.2.2.1
    [("a", ConfigVal.vint 2)] [("a", ConfigVal.vint 1), ("b", ConfigVal.vint 1)]
    (by simp) (by simp [ConfigVal.isScalar]) "a"

/-! ## Claim C5 -/

/--
C5: the file loader's missing/malformed asymmetry — a missing required
path raises `FileNotFoundError` naming the path; a missing optional path
yields an empty tree; a malformed existing file yields an empty tree and
never raises, whatever the `required` flag.
-/
theorem toml_loader_missing_malformed_asymmetry :
    ∀ (l : TomlFileLoader) (fs : String → FileContent),
      (fs l.file_path = .missing → l.required = true →
        l.load fs = .error (.fileNotFound l.file_path)) ∧
      (fs l.file_path = .missing → l.required = false → l.load fs = .ok []) ∧
      (fs l.file_path = .malformed → l.load fs = .ok []) ∧
      (∀ d, fs l.file_path = .parsed d → l.load fs = .ok d) := by
  intro l fs
  refine ⟨?_, ?_, ?_, ?_⟩
  · intro hm hr; simp [TomlFileLoader.load, hm, hr]
  · intro hm hr; simp [TomlFileLoader.load, hm, hr]
  · intro hm; simp [TomlFileLoader.load, hm]
  · intro d hp; simp [TomlFileLoader.load, hp]

/-- Witness for C5: a required loader over a missing filesystem path. -/
theorem toml_loader_missing_malformed_asymmetry_witness :
    TomlFileLoader.load ⟨"config.default.toml", true⟩ (fun _ => .missing) =
      .error (.fileNotFound "config.default.toml") :=
  (toml_loader_missing_malformed_asymmetry ⟨"config.default.toml", true⟩
    (fun _ => .missing)).1 rfl rfl

/-! ## Claim C6 -/

/--
C6: a loader whose `load()` raises is skipped and merging continues —
dropping any failing loader (anywhere in the list) leaves the result
unchanged, only `.ok` outcomes matter, and
`load_sources([L_ok1, L_fail, L_ok2])` is the merge of the two
non-failing loaders' outputs.
-/
theorem load_sources_tolerates_failing_loader :
    (∀ (pre post : List LoaderOutcome) (e : LoadError),
      load_sources (pre ++ .error e :: post) = load_sources (pre ++ post)) ∧
    (∀ sources : List LoaderOutcome,
      load_sources sources = load_sources (sources.filter (fun l => l.toBool))) ∧
    (∀ (d1 d2 : Entries) (e : LoadError),
      load_sources [.ok d1, .error e, .ok d2] = load_sources [.ok d1, .ok d2]) :=
  ⟨load_sources_skip_error, load_sources_filter_ok,
   fun d1 d2 e => load_sources_skip_error [.ok d1] [.ok d2] e⟩

/-! ## Claim C3 -/

/--
C3 counterexample: a required file source that is absent is *not* fatal —
`TomlFileLoader.load` does raise `FileNotFoundError`, but `load_sources`
catches every loader exception (`except Exception` at
`src/typedconf/config/core.py` line 80), so the error never leaves the
file-merge step: the merge completes with the remaining loaders' trees,
and the settings assembly's merged file tree is simply empty when every
file (the required base included) is missing.
-/
theorem required_missing_error_swallowed :
    (TomlFileLoader.load ⟨"config.default.toml", true⟩ (fun _ => .missing) =
      .error (.fileNotFound "config.default.toml")) ∧
    (load_sources
        [TomlFileLoader.load ⟨"config.default.toml", true⟩ (fun _ => .missing),
         .ok [("a", .vint 1)]] =
      [("a", .vint 1)]) ∧
    (merged_file_config "development" (fun _ => .missing) = []) := by
  refine ⟨rfl, ?_, ?_⟩
  · simp [TomlFileLoader.load, load_sources, List.foldl, deep_merge, mergedValue,
      getKey, setKey]
  · simp [merged_file_config, config_sources, TomlFileLoader.load, load_sources,
      List.foldl, deep_merge]

/--
C3 amended: the `FileNotFoundError` raised by a required, missing file
source is caught inside `load_sources` and that source degrades to an
empty contribution — settings assembly receives the merge of the
remaining sources and no error propagates to its caller.
-/
theorem required_missing_degrades_to_empty :
    ∀ (fs : String → FileContent) (env : String),
      fs "config.default.toml" = .missing →
      (TomlFileLoader.load ⟨"config.default.toml", true⟩ fs =
        .error (.fileNotFound "config.default.toml")) ∧
      merged_file_config env fs =
        load_sources
          [TomlFileLoader.load ⟨"config." ++ env ++ ".toml", false⟩ fs,
           TomlFileLoader.load ⟨"config.local.toml", false⟩ fs] := by
  intro fs env hm
  have hload : TomlFileLoader.load ⟨"config.default.toml", true⟩ fs =
      .error (.fileNotFound "config.default.toml") := by
    simp [TomlFileLoader.load, hm]
  refine ⟨hload, ?_⟩
  have := load_sources_skip_error []
    [TomlFileLoader.load ⟨"config." ++ env ++ ".toml", false⟩ fs,
     TomlFileLoader.load ⟨"config.local.toml", false⟩ fs]
    (.fileNotFound "config.default.toml")
  simpa [merged_file_config, config_sources, hload] using this

/-- Witness for C3's amended theorem: the all-files-missing filesystem. -/
theorem required_missing_degrades_to_empty_witness :
    (TomlFileLoader.load ⟨"config.default.toml", true⟩ (fun _ => .missing) =
      .error (.fileNotFound "config.default.toml")) ∧
    merged_file_config "development" (fun _ => .missing) =
      load_sources
        [TomlFileLoader.load ⟨"config.development.toml", false⟩ (fun _ => .missing),
         TomlFileLoader.load ⟨"config.local.toml", false⟩ (fun _ => .missing)] :=
  required_missing_degrades_to_empty (fun _ => .missing) "development" rfl

/-! ## Claim C4 -/

/--
C4 counterexample: the legacy settings assembly
(`src/typedconf/user_config.py` line 48) returns
`(env_settings, init_settings, merged files)`, so a key present in both
the constructor-supplied source (value 1) and the environment source
(value 2) resolves to the environment's value — the constructor-supplied
value is *not* the highest-priority one there, and the repository has no
single fixed precedence chain.
-/
theorem legacy_precedence_env_beats_init :
    resolveSettings
        (settings_customise_sources_legacy
          (fun _ => some (.vint 1)) (fun _ => some (.vint 2)) [])
        "app_name" = some (.vint 2) ∧
    ConfigVal.vint 2 ≠ ConfigVal.vint 1 := by
  constructor
  · rfl
  · intro h
    cases h

/--
C4 amended: the settings assembly of the config subpackage
(`src/typedconf/config/user_config.py`) resolves every key under the
chain constructor-supplied values, then environment variables, then
dotenv, then secret files, then the merged TOML tree last; the legacy
assembly (`src/typedconf/user_config.py`) instead resolves environment
variables above constructor-supplied values with the merged TOML tree
last and no dotenv or secret-file sources.
-/
theorem settings_precedence_of_each_variant :
    (∀ (init env dotenv secrets : SettingsSource) (merged : Entries) (k : String)
        (v : ConfigVal), init k = some v →
      resolveSettings (settings_customise_sources init env dotenv secrets merged) k =
        some v) ∧
    (∀ (init env dotenv secrets : SettingsSource) (merged : Entries) (k : String)
        (v : ConfigVal), init k = none → env k = some v →
      resolveSettings (settings_customise_sources init env dotenv secrets merged) k =
        some v) ∧
    (∀ (init env dotenv secrets : SettingsSource) (merged : Entries) (k : String)
        (v : ConfigVal), init k = none → env k = none → dotenv k = some v →
      resolveSettings (settings_customise_sources init env dotenv secrets merged) k =
        some v) ∧
    (∀ (init env dotenv secrets : SettingsSource) (merged : Entries) (k : String)
        (v : ConfigVal), init k = none → env k = none → dotenv k = none →
      secrets k = some v →
      resolveSettings (settings_customise_sources init env dotenv secrets merged) k =
        some v) ∧
    (∀ (init env dotenv secrets : SettingsSource) (merged : Entries) (k : String),
      init k = none → env k = none → dotenv k = none → secrets k = none →
      resolveSettings (settings_customise_sources init env dotenv secrets merged) k =
        getKey merged k) ∧
    (∀ (init env : SettingsSource) (merged : Entries) (k : String) (v : ConfigVal),
      env k = some v →
      resolveSettings (settings_customise_sources_legacy init env merged) k = some v) ∧
    (∀ (init env : SettingsSource) (merged : Entries) (k : String) (v : ConfigVal),
      env k = none → init k = some v →
      resolveSettings (settings_customise_sources_legacy init env merged) k = some v) ∧
    (∀ (init env : SettingsSource) (merged : Entries) (k : String),
      env k = none → init k = none →
      resolveSettings (settings_customise_sources_legacy init env merged) k =
        getKey merged k) := by
  refine ⟨?_, ?_, ?_, ?_, ?_, ?_, ?_, ?_⟩
  · intro init env dotenv secrets merged k v h1
    simp [resolveSettings, settings_customise_sources, h1]
  · intro init env dotenv secrets merged k v h1 h2
    simp [resolveSettings, settings_customise_sources, h1, h2]
  · intro init env dotenv secrets merged k v h1 h2 h3
    simp [resolveSettings, settings_customise_sources, h1, h2, h3]
  · intro init env dotenv secrets merged k v h1 h2 h3 h4
    simp [resolveSettings, settings_customise_sources, h1, h2, h3, h4]
  · intro init env dotenv secrets merged k h1 h2 h3 h4
    simp [resolveSettings, settings_customise_sources, h1, h2, h3, h4]
    cases getKey merged k <;> rfl
  · intro init env merged k v h1
    simp [resolveSettings, settings_customise_sources_legacy, h1]
  · intro init env merged k v h1 h2
    simp [resolveSettings, settings_customise_sources_legacy, h1, h2]
  · intro init env merged k h1 h2
    simp [resolveSettings, settings_customise_sources_legacy, h1, h2]
    cases getKey merged k <;> rfl

/-- Witness for C4's amended theorem: constructor value wins in the config
subpackage's assembly. -/
theorem settings_precedence_of_each_variant_witness :
    resolveSettings
        (settings_customise_sources
          (fun _ => some (.vint 1)) (fun _ => some (.vint 2))
          (fun _ => some (.vint 3)) (fun _ => some (.vint 4)) [])
        "app_name" = some (.vint 1) :=
  settings_precedence_of_each_variant.1
    (fun _ => some (.vint 1)) (fun _ => some (.vint 2))
    (fun _ => some (.vint 3)) (fun _ => some (.vint 4)) [] "app_name"
    (.vint 1) rfl

/-! ## Claim C7 -/

/-- Required exactly when: not the receiver parameter and no default. -/
def isRequiredParam (p : PyParam) : Bool :=
  !(p.name == "self" || p.name == "cls") && !p.hasDefault

theorem foldl_toolSchemaStep_required (params : List PyParam) (s : ToolSchema) :
    (params.foldl toolSchemaStep s).required =
      s.required ++ (params.filter isRequiredParam).map PyParam.name := by
  induction params generalizing s with
  | nil => simp
  | cons p rest ih =>
      simp only [List.foldl_cons, List.filter_cons]
      by_cases hself : p.name = "self" ∨ p.name = "cls"
      · have hstep : toolSchemaStep s p = s := by simp [toolSchemaStep, hself]
        have hfil : isRequiredParam p = false := by
          rcases hself with h | h <;> simp [isRequiredParam, h]
        rw [hstep, ih, hfil]
        simp
      · have h1 : ¬ p.name = "self" := fun h => hself (Or.inl h)
        have h2 : ¬ p.name = "cls" := fun h => hself (Or.inr h)
        cases hd : p.hasDefault with
        | true =>
            have hfil : isRequiredParam p = false := by
              simp [isRequiredParam, h1, h2, hd]
            have hstep : (toolSchemaStep s p).required = s.required := by
              simp [toolSchemaStep, hself, hd]
            rw [ih, hstep, hfil]
            simp
        | false =>
            have hfil : isRequiredParam p = true := by
              simp [isRequiredParam, h1, h2, hd]
            have hstep : (toolSchemaStep s p).required = s.required ++ [p.name] := by
              simp [toolSchemaStep, hself, hd]
            rw [ih, hstep, hfil]
            simp

/--
C7: `generate_tool_schema` lists a parameter as required exactly when it
has no default value; declared types map into
string/integer/number/boolean/array/object with string the default for
unrecognised or untyped parameters; and on
`with_default(name: str, count: int = 5)` with docstring
"Function with optional parameter." it yields required `["name"]`,
`name` typed string, `count` typed integer and absent from required, and
the description exactly the docstring.
-/
theorem tool_schema_required_iff_no_default :
    (∀ func : PyFunction,
      (generate_tool_schema func).required =
        (func.params.filter isRequiredParam).map PyParam.name) ∧
    (∀ func : PyFunction, ∀ p ∈ func.params,
      (func.params.map PyParam.name).Nodup →
      ¬ p.name = "self" → ¬ p.name = "cls" →
      (p.name ∈ (generate_tool_schema func).required ↔ p.hasDefault = false)) ∧
    (∀ t : PyType, python_type_to_json t ∈
      ["string", "integer", "number", "boolean", "array", "object"]) ∧
    (python_type_to_json PyType.pyOther = "string") ∧
    (python_type_to_json ((none : Option PyType).getD .pyStr) = "string") ∧
    (generate_tool_schema
        ⟨"with_default", some "Function with optional parameter.",
         [⟨"name", some .pyStr, false⟩, ⟨"count", some .pyInt, true⟩]⟩ =
      ⟨"function", "with_default", "Function with optional parameter.",
       [("name", "string"), ("count", "integer")], ["name"]⟩) := by
  have hreq : ∀ func : PyFunction,
      (generate_tool_schema func).required =
        (func.params.filter isRequiredParam).map PyParam.name := by
    intro func
    have := foldl_toolSchemaStep_required func.params
    simp [generate_tool_schema] at this ⊢
    rw [this]
    simp
  refine ⟨hreq, ?_, ?_, rfl, rfl, ?_⟩
  · intro func p hp hnd hs hc
    rw [hreq func]
    constructor
    · intro hmem
      obtain ⟨q, hqf, hqn⟩ := List.mem_map.mp hmem
      have hq := List.mem_filter.mp hqf
      have : q = p := List.inj_on_of_nodup_map hnd hq.1 hp hqn
      subst this
      have := hq.2
      simp [isRequiredParam, hs, hc] at this
      simpa using this
    · intro hdef
      refine List.mem_map.mpr ⟨p, List.mem_filter.mpr ⟨hp, ?_⟩, rfl⟩
      simp [isRequiredParam, hs, hc, hdef]
  · intro t
    cases t <;> simp [python_type_to_json]
  · decide

/-- Witness for C7: the `name` parameter of the example function, required
because it has no default. -/
theorem tool_schema_required_iff_no_default_witness :
    ("name" ∈
        (generate_tool_schema
          ⟨"with_default", some "Function with optional parameter.",
           [⟨"name", some .pyStr, false⟩, ⟨"count", some .pyInt, true⟩]⟩).required ↔
      (false : Bool) = false) :=
  tool_schema_required_iff_no_default.2.1
    ⟨"with_default", some "Function with optional parameter.",
     [⟨"name", some .pyStr, false⟩, ⟨"count", some .pyInt, true⟩]⟩
    ⟨"name", some .pyStr, false⟩ (by simp) (by simp) (by simp) (by simp)

/-! ## Claim C8 -/

/--
C8: for every transport response carrying at least one choice, `invoke`
returns the `ChatResponse` whose content is the first choice's message
content with null mapped to the empty string, whose usage is the
response's usage verbatim (absent exactly when the response carries
none), whose elapsed time is the difference of the two wall-clock
readings (non-negative when the clock does not go backwards), and whose
metadata carries the provider's response fingerprint.
-/
theorem invoke_normalises_first_choice :
    ∀ (model_config : ModelConfig)
      (client : List (String × String) → ApiParams → ChatCompletion)
      (messages : List ChatMessage) (kwargs : InvokeKwargs)
      (start_time end_time : ℚ) (choice : ChatChoice) (more : List ChatChoice),
      (client (messages.map (fun msg => (msg.role.value, msg.content)))
          { model := kwargs.model.getD model_config.id
            temperature := kwargs.temperature.getD model_config.temperature
            max_tokens := kwargs.max_tokens.getD model_config.max_tokens
            top_p := kwargs.top_p.getD model_config.top_p }).choices =
        choice :: more →
      start_time ≤ end_time →
      invoke model_config client messages kwargs start_time end_time =
        some
          { content := choice.message.content.getD ""
            model := (client (messages.map (fun msg => (msg.role.value, msg.content)))
              { model := kwargs.model.getD model_config.id
                temperature := kwargs.temperature.getD model_config.temperature
                max_tokens := kwargs.max_tokens.getD model_config.max_tokens
                top_p := kwargs.top_p.getD model_config.top_p }).model
            usage := (client (messages.map (fun msg => (msg.role.value, msg.content)))
              { model := kwargs.model.getD model_config.id
                temperature := kwargs.temperature.getD model_config.temperature
                max_tokens := kwargs.max_tokens.getD model_config.max_tokens
                top_p := kwargs.top_p.getD model_config.top_p }).usage
            response_time := some (end_time - start_time)
            finish_reason := choice.finish_reason
            metadata := some [("system_fingerprint",
              (client (messages.map (fun msg => (msg.role.value, msg.content)))
                { model := kwargs.model.getD model_config.id
                  temperature := kwargs.temperature.getD model_config.temperature
                  max_tokens := kwargs.max_tokens.getD model_config.max_tokens
                  top_p := kwargs.top_p.getD model_config.top_p }).system_fingerprint)] } ∧
      0 ≤ end_time - start_time := by
  intro model_config client messages kwargs start_time end_time choice more hchoices ht
  constructor
  · simp only [invoke, hchoices]
  · linarith

/-- Witness for C8: a mocked transport returning one choice with null
content, no usage, and fingerprint fp_123. -/
theorem invoke_normalises_first_choice_witness :
    invoke ⟨"gpt-3.5-turbo", 10, 100, (7 : ℚ) / 10⟩
        (fun _ _ => ⟨[⟨⟨none⟩, some "stop"⟩], "gpt-3.5-turbo", none, some "fp_123"⟩)
        [⟨.user, "Hi"⟩] ⟨none, none, none, none⟩ 0 1 =
      some
        { content := (none : Option String).getD ""
          model := "gpt-3.5-turbo"
          usage := none
          response_time := some ((1 : ℚ) - 0)
          finish_reason := some "stop"
          metadata := some [("system_fingerprint", some "fp_123")] } ∧
    (0 : ℚ) ≤ 1 - 0 :=
  invoke_normalises_first_choice ⟨"gpt-3.5-turbo", 10, 100, (7 : ℚ) / 10⟩
    (fun _ _ => ⟨[⟨⟨none⟩, some "stop"⟩], "gpt-3.5-turbo", none, some "fp_123"⟩)
    [⟨.user, "Hi"⟩] ⟨none, none, none, none⟩ 0 1 ⟨⟨none⟩, some "stop"⟩ [] rfl
    (by norm_num)

/-! ## Claim C10 -/

/--
C10: `invoke` produces a `ChatResponse` exactly when the transport
response contains at least one choice — the unguarded first-choice
access succeeds under that precondition, and a zero-choice response
produces no `ChatResponse` (the error propagates to the caller).
-/
theorem invoke_needs_nonempty_choices :
    ∀ (model_config : ModelConfig)
      (client : List (String × String) → ApiParams → ChatCompletion)
      (messages : List ChatMessage) (kwargs : InvokeKwargs)
      (start_time end_time : ℚ),
      ((client (messages.map (fun msg => (msg.role.value, msg.content)))
          { model := kwargs.model.getD model_config.id
            temperature := kwargs.temperature.getD model_config.temperature
            max_tokens := kwargs.max_tokens.getD model_config.max_tokens
            top_p := kwargs.top_p.getD model_config.top_p }).choices = [] →
        invoke model_config client messages kwargs start_time end_time = none) ∧
      ((client (messages.map (fun msg => (msg.role.value, msg.content)))
          { model := kwargs.model.getD model_config.id
            temperature := kwargs.temperature.getD model_config.temperature
            max_tokens := kwargs.max_tokens.getD model_config.max_tokens
            top_p := kwargs.top_p.getD model_config.top_p }).choices ≠ [] →
        (invoke model_config client messages kwargs start_time end_time).isSome =
          true) := by
  intro model_config client messages kwargs start_time end_time
  constructor
  · intro h
    simp only [invoke, h]
  · intro h
    cases hc : (client (messages.map (fun msg => (msg.role.value, msg.content)))
        { model := kwargs.model.getD model_config.id
          temperature := kwargs.temperature.getD model_config.temperature
          max_tokens := kwargs.max_tokens.getD model_config.max_tokens
          top_p := kwargs.top_p.getD model_config.top_p }).choices with
      | nil => exact absurd hc h
      | cons c cs => simp only [invoke, hc, Option.isSome_some]

/-- Witness for C10: a transport returning zero choices makes `invoke`
produce nothing. -/
theorem invoke_needs_nonempty_choices_witness :
    invoke ⟨"gpt-3.5-turbo", 10, 100, (7 : ℚ) / 10⟩
        (fun _ _ => ⟨[], "gpt-3.5-turbo", none, none⟩)
        [⟨.user, "Hi"⟩] ⟨none, none, none, none⟩ 0 1 = none :=
  (invoke_needs_nonempty_choices ⟨"gpt-3.5-turbo", 10, 100, (7 : ℚ) / 10⟩
    (fun _ _ => ⟨[], "gpt-3.5-turbo", none, none⟩)
    [⟨.user, "Hi"⟩] ⟨none, none, none, none⟩ 0 1).1 rfl

/-! ### Store lemmas -/

theorem hfind_hstore_self (l : List (Addr × MapObj)) (a : Addr) (o : MapObj)
    (hs : (hfind l a).isSome = true) : hfind (hstore l a o) a = some o := by
  induction l with
  | nil => simp [hfind] at hs
  | cons p rest ih =>
      obtain ⟨a0, m0⟩ := p
      by_cases ha : a0 = a
      · simp [hstore, ha, hfind]
      · simp only [hfind, if_neg ha] at hs
        simp [hstore, ha, hfind, ih hs]

theorem hfind_hstore_ne (l : List (Addr × MapObj)) (a b : Addr) (o : MapObj)
    (h : b ≠ a) : hfind (hstore l a o) b = hfind l b := by
  have hne : ¬ a = b := Ne.symm h
  induction l with
  | nil => simp [hstore, hfind]
  | cons p rest ih =>
      obtain ⟨a0, m0⟩ := p
      by_cases ha : a0 = a
      · subst ha
        simp [hstore, hfind, hne]
      · simp [hstore, ha, hfind, ih]

theorem hfind_append_left (l l2 : List (Addr × MapObj)) (a : Addr) (m : MapObj)
    (h : hfind l a = some m) : hfind (l ++ l2) a = some m := by
  induction l with
  | nil => simp [hfind] at h
  | cons p rest ih =>
      obtain ⟨a0, m0⟩ := p
      by_cases ha : a0 = a
      · simp only [hfind, if_pos ha] at h
        simp [hfind, ha, h]
      · simp only [hfind, if_neg ha] at h
        simp [hfind, ha, ih h]

theorem hfind_append_fresh (l : List (Addr × MapObj)) (x : Addr) (o : MapObj)
    (h : hfind l x = none) : hfind (l ++ [(x, o)]) x = some o := by
  induction l with
  | nil => simp [hfind]
  | cons p rest ih =>
      obtain ⟨a0, m0⟩ := p
      by_cases ha : a0 = x
      · simp [hfind, ha] at h
      · simp only [hfind, if_neg ha] at h
        simp [hfind, ha, ih h]

theorem hfind_lt_of_bound (l : List (Addr × MapObj)) (a : Addr) (m : MapObj)
    (n : Nat) (hf : hfind l a = some m) (hb : ∀ p ∈ l, p.1 < n) : a < n := by
  induction l with
  | nil => simp [hfind] at hf
  | cons p rest ih =>
      obtain ⟨a0, m0⟩ := p
      by_cases ha : a0 = a
      · subst ha
        exact hb (a0, m0) (List.mem_cons_self _ _)
      · simp only [hfind, if_neg ha] at hf
        exact ih hf (fun q hq => hb q (List.mem_cons_of_mem _ hq))

/-- In a well-formed heap, every live address lies below the cursor. -/
theorem addr_lt_next_of_hGet (h : Heap) (a : Addr) (m : MapObj)
    (hwf : WellFormedHeap h) (hf : hGet h a = some m) : a < h.next :=
  hfind_lt_of_bound h.objs a m h.next hf hwf

/-- In a well-formed heap, the allocation cursor is an unused address. -/
theorem hGet_next_eq_none (h : Heap) (hwf : WellFormedHeap h) :
    hGet h h.next = none := by
  cases hf : hGet h h.next with
  | none => rfl
  | some m =>
      have hlt := addr_lt_next_of_hGet h h.next m hwf hf
      exact absurd hlt (lt_irrefl _)

/-! ## Claim C9 -/

/--
C9: `deep_merge` recurses at a key only when the destination's existing
value is an exact `dict`: a non-dict `Mapping` in the destination is
replaced wholesale (contrast with the dict case, which merges), and a
source value that is a `Mapping` but not a `dict` is stored into the
destination as the very same object — same address, no allocation, no
copy.
-/
theorem deep_merge_dict_instance_only :
    (∀ (k : String) (es des dst : Entries),
      getKey dst k = some (.vmap des) →
      getKey (deep_merge [(k, .vdict es)] dst) k = some (.vdict es)) ∧
    (∀ (k : String) (es des dst : Entries),
      getKey dst k = some (.vdict des) →
      getKey (deep_merge [(k, .vdict es)] dst) k =
        some (.vdict (deep_merge es des))) ∧
    (∀ (k : String) (es : Entries) (dst : Entries),
      getKey dst k = none →
      getKey (deep_merge [(k, .vmap es)] dst) k = some (.vmap es)) ∧
    (∀ (fuel : Nat) (k : String) (a dst : Addr) (h : Heap) (dobj m : MapObj),
      hGet h dst = some dobj → hGet h a = some m → m.isDict = false →
      (∀ b, getKey dobj.entries k = some (.ref b) → isDictAddr h b = false) →
      mergeItem fuel k (.ref a) dst h = some (assignKey h dst dobj k (.ref a)) ∧
      hGet (assignKey h dst dobj k (.ref a)) dst =
        some ⟨dobj.isDict, setKey dobj.entries k (.ref a)⟩ ∧
      getKey (setKey dobj.entries k (.ref a)) k = some (.ref a) ∧
      (assignKey h dst dobj k (.ref a)).next = h.next ∧
      (assignKey h dst dobj k (.ref a)).objs.length = h.objs.length) := by
  refine ⟨?_, ?_, ?_, ?_⟩
  · intro k es des dst hget
    simp [deep_merge, mergedValue, hget, getKey_setKey_self]
  · intro k es des dst hget
    simp [deep_merge, mergedValue, hget, getKey_setKey_self]
  · intro k es dst hget
    simp [deep_merge, mergedValue, hget, getKey_setKey_self]
  · intro fuel k a dst h dobj m hdst ha hm hb
    have hda : isDictAddr h a = false := by simp [isDictAddr, ha, hm]
    have hstep : mergeItem fuel k (.ref a) dst h =
        some (assignKey h dst dobj k (.ref a)) := by
      cases hk : getKey dobj.entries k with
      | none => simp [mergeItem, hdst, hk, hda]
      | some pv =>
          cases pv with
          | int n => simp [mergeItem, hdst, hk, hda]
          | ref b =>
              have hdb : isDictAddr h b = false := hb b hk
              simp [mergeItem, hdst, hk, hda, hdb, ha]
    refine ⟨hstep, ?_, getKey_setKey_self _ _ _, rfl, ?_⟩
    · have hs : (hfind h.objs dst).isSome = true := by
        simp [hGet] at hdst
        simp [hdst]
      exact hfind_hstore_self h.objs dst _ hs
    · simp only [assignKey, hSet]
      generalize h.objs = l
      induction l with
      | nil => simp [hstore]
      | cons p rest ih =>
          obtain ⟨a0, m0⟩ := p
          by_cases h0 : a0 = dst <;> simp [hstore, h0, ih]

/-- Witness for C9: the destination holds a read-only proxy at the key, the
source holds a proxy object at address 0 — stored as address 0 itself. -/
theorem deep_merge_dict_instance_only_witness :
    mergeItem 5 "a" (.ref 0) 1
        ⟨[(0, ⟨false, [("x", .int 1)]⟩), (1, ⟨true, []⟩)], 2⟩ =
      some (assignKey ⟨[(0, ⟨false, [("x", .int 1)]⟩), (1, ⟨true, []⟩)], 2⟩ 1
        ⟨true, []⟩ "a" (.ref 0)) ∧
    hGet (assignKey ⟨[(0, ⟨false, [("x", .int 1)]⟩), (1, ⟨true, []⟩)], 2⟩ 1
        ⟨true, []⟩ "a" (.ref 0)) 1 =
      some ⟨true, setKey [] "a" (.ref 0)⟩ ∧
    getKey (setKey ([] : List (String × PVal)) "a" (.ref 0)) "a" =
      some (.ref 0) ∧
    (assignKey ⟨[(0, ⟨false, [("x", .int 1)]⟩), (1, ⟨true, []⟩)], 2⟩ 1
        ⟨true, []⟩ "a" (.ref 0)).next = 2 ∧
    (assignKey ⟨[(0, ⟨false, [("x", .int 1)]⟩), (1, ⟨true, []⟩)], 2⟩ 1
        ⟨true, []⟩ "a" (.ref 0)).objs.length = 2 :=
  deep_merge_dict_instance_only.2.2.2 5 "a" 0 1
    ⟨[(0, ⟨false, [("x", .int 1)]⟩), (1, ⟨true, []⟩)], 2⟩ ⟨true, []⟩
    ⟨false, [("x", .int 1)]⟩ rfl rfl rfl
    (fun b hb => by simp [getKey] at hb)

/-! ## Claim C2 -/

/--
C2 amended: when `deep_merge` introduces a nested mapping into the
destination it assigns `value.copy()` — a *shallow* copy.  The directly
assigned object is fresh (its address is the allocation cursor, distinct
from the source value's address and from every live address), but its
entry list is the source object's entry list verbatim, so every nested
mapping one level further down is stored by the *same* address as in the
source: aliasing of the source's internal structure starts at depth two.
-/
theorem mergeItem_copy_is_shallow :
    ∀ (fuel : Nat) (k : String) (a dst : Addr) (h : Heap) (dobj m : MapObj),
      WellFormedHeap h →
      hGet h dst = some dobj → hGet h a = some m → m.isDict = true →
      (∀ b, getKey dobj.entries k = some (.ref b) → isDictAddr h b = false) →
      mergeItem fuel k (.ref a) dst h = some (copyAssign h dst dobj k a) ∧
      h.next ≠ a ∧
      hGet h h.next = none ∧
      hGet (copyAssign h dst dobj k a) h.next = some ⟨true, m.entries⟩ ∧
      hGet (copyAssign h dst dobj k a) dst =
        some ⟨dobj.isDict, setKey dobj.entries k (.ref h.next)⟩ ∧
      getKey (setKey dobj.entries k (.ref h.next)) k = some (.ref h.next) := by
  intro fuel k a dst h dobj m hwf hdst ha hm hb
  have ha' : hfind h.objs a = some m := ha
  have hdst' : hfind h.objs dst = some dobj := hdst
  have hda : isDictAddr h a = true := by simp [isDictAddr, ha, hm]
  have halt : a < h.next := addr_lt_next_of_hGet h a m hwf ha
  have hdlt : dst < h.next := addr_lt_next_of_hGet h dst dobj hwf hdst
  have hnone : hGet h h.next = none := hGet_next_eq_none h hwf
  have hnone' : hfind h.objs h.next = none := hnone
  have hstep : mergeItem fuel k (.ref a) dst h =
      some (copyAssign h dst dobj k a) := by
    cases hk : getKey dobj.entries k with
    | none => simp [mergeItem, hdst, hk, hda]
    | some pv =>
        cases pv with
        | int n => simp [mergeItem, hdst, hk, hda]
        | ref b =>
            have hdb : isDictAddr h b = false := hb b hk
            simp [mergeItem, hdst, hk, hda, hdb, ha]
  have hnd : h.next ≠ dst := (Nat.ne_of_lt hdlt).symm
  refine ⟨hstep, (Nat.ne_of_lt halt).symm, hnone, ?_, ?_, getKey_setKey_self _ _ _⟩
  · simp only [copyAssign, hGet, hSet, ha', Option.getD_some]
    rw [hfind_hstore_ne _ _ _ _ hnd]
    exact hfind_append_fresh h.objs h.next _ hnone'
  · simp only [copyAssign, hGet, hSet, ha', Option.getD_some]
    apply hfind_hstore_self
    rw [hfind_append_left h.objs _ dst dobj hdst']
    rfl

/-- Witness for C2's amended theorem: copying `{"b": &1}` (address 0) into
an empty accumulator (address 2) allocates address 3 for the copy, whose
sole entry still references address 1. -/
theorem mergeItem_copy_is_shallow_witness :
    mergeItem 5 "a" (.ref 0) 2
        ⟨[(0, ⟨true, [("b", .ref 1)]⟩), (1, ⟨true, [("x", .int 1)]⟩),
          (2, ⟨true, []⟩)], 3⟩ =
      some (copyAssign
        ⟨[(0, ⟨true, [("b", .ref 1)]⟩), (1, ⟨true, [("x", .int 1)]⟩),
          (2, ⟨true, []⟩)], 3⟩ 2 ⟨true, []⟩ "a" 0) ∧
    (3 : Addr) ≠ 0 ∧
    hGet ⟨[(0, ⟨true, [("b", .ref 1)]⟩), (1, ⟨true, [("x", .int 1)]⟩),
          (2, ⟨true, []⟩)], 3⟩ 3 = none ∧
    hGet (copyAssign
        ⟨[(0, ⟨true, [("b", .ref 1)]⟩), (1, ⟨true, [("x", .int 1)]⟩),
          (2, ⟨true, []⟩)], 3⟩ 2 ⟨true, []⟩ "a" 0) 3 =
      some ⟨true, [("b", .ref 1)]⟩ ∧
    hGet (copyAssign
        ⟨[(0, ⟨true, [("b", .ref 1)]⟩), (1, ⟨true, [("x", .int 1)]⟩),
          (2, ⟨true, []⟩)], 3⟩ 2 ⟨true, []⟩ "a" 0) 2 =
      some ⟨true, setKey [] "a" (.ref 3)⟩ ∧
    getKey (setKey ([] : List (String × PVal)) "a" (.ref 3)) "a" =
      some (.ref 3) :=
  mergeItem_copy_is_shallow 5 "a" 0 2
    ⟨[(0, ⟨true, [("b", .ref 1)]⟩), (1, ⟨true, [("x", .int 1)]⟩),
      (2, ⟨true, []⟩)], 3⟩ ⟨true, []⟩ ⟨true, [("b", .ref 1)]⟩
    (by simp [WellFormedHeap]) rfl rfl rfl (fun b hb => by simp [getKey] at hb)

/--
Heap of the C2 counterexample before any merge: a first loaded source
tree `{"a": {"b": {"x": 1}}}` at addresses 0/1/2, the empty accumulator
at address 3, and a second loaded source tree `{"a": {"b": {"x": 2}}}`
at addresses 4/5/6.
-/
def heapS0 : Heap :=
  ⟨[(0, ⟨true, [("a", .ref 1)]⟩), (1, ⟨true, [("b", .ref 2)]⟩),
    (2, ⟨true, [("x", .int 1)]⟩), (3, ⟨true, []⟩),
    (4, ⟨true, [("a", .ref 5)]⟩), (5, ⟨true, [("b", .ref 6)]⟩),
    (6, ⟨true, [("x", .int 2)]⟩)], 7⟩

/-- The heap after merging the first source into the accumulator. -/
def heapS1 : Heap :=
  ⟨[(0, ⟨true, [("a", .ref 1)]⟩), (1, ⟨true, [("b", .ref 2)]⟩),
    (2, ⟨true, [("x", .int 1)]⟩), (3, ⟨true, [("a", .ref 7)]⟩),
    (4, ⟨true, [("a", .ref 5)]⟩), (5, ⟨true, [("b", .ref 6)]⟩),
    (6, ⟨true, [("x", .int 2)]⟩), (7, ⟨true, [("b", .ref 2)]⟩)], 8⟩

/-- The heap after then merging the second source into the accumulator. -/
def heapS2 : Heap :=
  ⟨[(0, ⟨true, [("a", .ref 1)]⟩), (1, ⟨true, [("b", .ref 2)]⟩),
    (2, ⟨true, [("x", .int 2)]⟩), (3, ⟨true, [("a", .ref 7)]⟩),
    (4, ⟨true, [("a", .ref 5)]⟩), (5, ⟨true, [("b", .ref 6)]⟩),
    (6, ⟨true, [("x", .int 2)]⟩), (7, ⟨true, [("b", .ref 2)]⟩)], 8⟩

/--
C2 counterexample: merging `{"a": {"b": {"x": 1}}}` (address 0) into the
empty accumulator (address 3) assigns a copy at fresh address 7 — but the
copy is shallow, so the merged result reaches, along path `a`,`b`, the
*same* object (address 2) the source reaches: a nested mapping in the
merged result is reference-equal to the corresponding nested mapping of
the source at depth two.  Merging the second source
`{"a": {"b": {"x": 2}}}` then mutates object 2 in place from
`{"x": 1}` to `{"x": 2}` — the previously loaded source tree is changed,
contradicting the claim at every quantifier.
-/
theorem deep_merge_copy_aliases_source_interior :
    deepMergeH 9 0 3 heapS0 = some heapS1 ∧
    hGet heapS1 3 = some ⟨true, [("a", .ref 7)]⟩ ∧
    hGet heapS1 7 = some ⟨true, [("b", .ref 2)]⟩ ∧
    hGet heapS1 0 = some ⟨true, [("a", .ref 1)]⟩ ∧
    hGet heapS1 1 = some ⟨true, [("b", .ref 2)]⟩ ∧
    deepMergeH 9 4 3 heapS1 = some heapS2 ∧
    hGet heapS2 2 = some ⟨true, [("x", .int 2)]⟩ ∧
    hGet heapS0 2 = some ⟨true, [("x", .int 1)]⟩ := by
  refine ⟨?_, rfl, rfl, rfl, rfl, ?_, rfl, rfl⟩
  · simp [heapS0, heapS1, deepMergeH, mergeItems, mergeItem, hGet, hSet, hfind,
      hstore, isDictAddr, getKey, setKey, copyAssign, assignKey]
  · simp [heapS1, heapS2, deepMergeH, mergeItems, mergeItem, hGet, hSet, hfind,
      hstore, isDictAddr, getKey, setKey, copyAssign, assignKey]
